import Mathlib

/-!
Verification of the SSRF-relay web application (Flask, Python) against its
natural-language specification.  The Python sources are shallowly embedded
as executable Lean functions over `List Char` / `String`; stateful code
(the rate limiter) is embedded as explicit state passing.  Python string
operations (`replace`, `split`, `strip`, `int()`, `str.isdigit`,
`urllib.parse.urlparse`, `urllib.parse.parse_qs`) are modelled for the
ASCII fragment relevant to the program; the handful of places where
CPython is Unicode-aware are noted in comments at the definition.
-/

namespace PyStr

/-- Characters stripped by Python `str.strip()` (ASCII fragment). -/
def isPySpace (c : Char) : Bool :=
  c = ' ' || c = '\t' || c = '\n' || c = '\r' || c = '\x0b' || c = '\x0c'

/-- Python `str.strip()` on a character list (ASCII whitespace fragment). -/
def pyStripL (cs : List Char) : List Char :=
  ((cs.dropWhile isPySpace).reverse.dropWhile isPySpace).reverse

/-- Python `str.strip()`. -/
def pyStrip (s : String) : String :=
  (pyStripL s.data).asString

/-- Substring test (`needle in hay` for Python strings). -/
def containsL (needle : List Char) : List Char → Bool
  | [] => needle.isEmpty
  | c :: rest => needle.isPrefixOf (c :: rest) || containsL needle rest

/-- Python `sub in s`. -/
def strContains (s sub : String) : Bool :=
  containsL sub.data s.data

/-- Python `s.startswith(pre)`. -/
def strStartsWith (s pre : String) : Bool :=
  pre.data.isPrefixOf s.data

/-- Single-character membership (`c in s`). -/
def containsChar (c : Char) (cs : List Char) : Bool :=
  cs.any (· = c)

/-- Python `s.split(sep)` for a one-character separator: auxiliary with
accumulator. -/
def splitCharAux (sep : Char) : List Char → List Char → List (List Char)
  | [], acc => [acc.reverse]
  | c :: rest, acc =>
    if c = sep then acc.reverse :: splitCharAux sep rest []
    else splitCharAux sep rest (c :: acc)

/-- Python `s.split(sep)` for a one-character separator. -/
def splitChar (sep : Char) (cs : List Char) : List (List Char) :=
  splitCharAux sep cs []

/-- Split at the first occurrence of a character: `s.split(sep, 1)` /
`s.partition(sep)` (returns `none` when the character is absent). -/
def splitFirstChar (sep : Char) : List Char → Option (List Char × List Char)
  | [] => none
  | c :: rest =>
    if c = sep then some ([], rest)
    else match splitFirstChar sep rest with
      | some (before, after) => some (c :: before, after)
      | none => none

/-- The part of the list after the last occurrence of `sep`
(`s.rpartition(sep)[2]`); the whole list when `sep` is absent. -/
def afterLastChar (sep : Char) (cs : List Char) : List Char :=
  match splitFirstChar sep cs.reverse with
  | some (before, _) => before.reverse
  | none => cs

/-- ASCII lower-casing of one character (fragment of Python `str.lower()`;
CPython also lowers non-ASCII letters, which never affects membership in
the program's ASCII host/path allowlists). -/
def pyToLower (c : Char) : Char :=
  if 'A' ≤ c ∧ c ≤ 'Z' then Char.ofNat (c.toNat + 32) else c

/-- ASCII fragment of Python `str.lower()`. -/
def lowerL (cs : List Char) : List Char :=
  cs.map pyToLower

/-- Python `str.replace(old, new)` with fuel (all non-overlapping
occurrences, left to right; only ever used with nonempty `old`). -/
def replaceFuel (old new : List Char) : Nat → List Char → List Char
  | 0, s => s
  | _, [] => []
  | fuel + 1, c :: rest =>
    if old.isPrefixOf (c :: rest) ∧ ¬ old.isEmpty then
      new ++ replaceFuel old new fuel (List.drop (old.length - 1) rest)
    else
      c :: replaceFuel old new fuel rest

/-- Python `s.replace(old, new)`. -/
def pyReplace (s old new : String) : String :=
  (replaceFuel old.data new.data (s.data.length + 1) s.data).asString

/-- Python `str.isdigit()` (ASCII fragment: CPython also accepts other
Unicode digit characters; the program only ever compares the verdict for
header values, where the ASCII fragment is the relevant one). -/
def pyIsDigit (s : String) : Bool :=
  ¬ s.data.isEmpty ∧ s.data.all Char.isDigit

/-- Numeric value of a decimal digit character. -/
def digitVal (c : Char) : Nat := c.toNat - '0'.toNat

/-- Value of a nonempty all-digit character list. -/
def digitsVal (cs : List Char) : Nat :=
  cs.foldl (fun a c => a * 10 + digitVal c) 0

/-- Digit run possibly containing single underscores between digits, as
accepted by CPython `int()` (e.g. `1_0`); returns its value. -/
def digitsUnderscore? (cs : List Char) : Option Nat :=
  if ¬ cs.isEmpty
      ∧ cs.head? ≠ some '_'
      ∧ cs.reverse.head? ≠ some '_'
      ∧ ¬ containsL ['_', '_'] cs
      ∧ cs.all (fun c => c.isDigit || c = '_') then
    some (digitsVal (cs.filter (· ≠ '_')))
  else
    none

/-- Python `int(s)` for a string argument: strips whitespace, one optional
sign, decimal digits with optional single grouping underscores.  `none`
models the `ValueError` raised on any other input. -/
def parsePyInt (s : String) : Option Int :=
  match pyStripL s.data with
  | '+' :: rest => (digitsUnderscore? rest).map Int.ofNat
  | '-' :: rest => (digitsUnderscore? rest).map (fun n => -(n : Int))
  | rest => (digitsUnderscore? rest).map Int.ofNat

end PyStr

open PyStr

namespace SecurityUtils

/-- Constant `ALLOWED_LOG_FILES` from security_utils.py. -/
def ALLOWED_LOG_FILES : List String :=
  ["admin.log", "error.log", "access.log", "system.log", "flag.txt"]

/-- Characters admitted by the character class of
`re.match(r'^[a-zA-Z0-9._-]+$', filename)`. -/
def isSafeFilenameChar (c : Char) : Bool :=
  c.isAlpha || c.isDigit || c = '.' || c = '_' || c = '-'

/-- Python `re.match(r'^[a-zA-Z0-9._-]+$', s)` as a Boolean: one or more
safe characters spanning the whole string, where `$` also matches just
before one final newline (CPython `$` semantics). -/
def matchesSafeFilename (cs : List Char) : Bool :=
  let core := if cs.reverse.head? = some '\n' then cs.dropLast else cs
  ¬ core.isEmpty ∧ core.all isSafeFilenameChar

/-- The separator/NUL removal step of `sanitize_filename`:
`filename.replace('/', '').replace('\\', '').replace('\0', '')`. -/
def stripSeparators (s : String) : String :=
  (s.data.filter (fun c => c ≠ '/' ∧ c ≠ '\\' ∧ c ≠ '\x00')).asString

/-- Function `sanitize_filename` from security_utils.py: empty check, separator/NUL
removal, safe-character regex, hidden-file and `..` rejection, then exact
whitelist membership. -/
def sanitize_filename (filename : String) : Option String :=
  if filename = "" then none
  else
    let f := stripSeparators filename
    if ¬ matchesSafeFilename f.data then none
    else if f.data.head? = some '.' || containsL ['.', '.'] f.data then none
    else if ¬ ALLOWED_LOG_FILES.contains f then none
    else some f

end SecurityUtils

namespace PyUrlParse

/-- Result of `urllib.parse.urlparse` (the components the program uses). -/
structure PyUrl where
  scheme : String
  netloc : String
  path : String
  params : String
  query : String
  fragment : String
  deriving DecidableEq

/-- Characters allowed in a URL scheme after the first
(`scheme_chars` in CPython urllib.parse). -/
def isSchemeChar (c : Char) : Bool :=
  c.isAlpha || c.isDigit || c = '+' || c = '-' || c = '.'

/-- Scheme extraction step of CPython `urlsplit`: split at the first `:`
when everything before it is a valid scheme starting with an ASCII
letter; the scheme is lower-cased. -/
def splitScheme (cs : List Char) : String × List Char :=
  match splitFirstChar ':' cs with
  | some (before, after) =>
    if ¬ before.isEmpty
        ∧ before.head?.elim false Char.isAlpha
        ∧ before.all isSchemeChar then
      ((lowerL before).asString, after)
    else ("", cs)
  | none => ("", cs)

/-- Netloc extraction of CPython `urlsplit`: after a leading `//`, the
netloc runs to the first `/`, `?` or `#`. -/
def isNetlocEnd (c : Char) : Bool :=
  c = '/' || c = '?' || c = '#'

/-- Schemes that use parameters (`uses_params` in CPython urllib.parse). -/
def uses_params : List String :=
  ["", "ftp", "hdl", "prospero", "http", "imap", "mailto", "news", "nntp",
   "telnet", "https", "shttp", "sip", "sips", "snews", "svn", "svn+ssh",
   "tel", "fax", "modem", "wais", "ws", "wss"]

/-- Step `_splitparams` of CPython urlparse: split the path at the first `;`
occurring in its last `/`-separated segment. -/
def splitParams (path : List Char) : List Char × List Char :=
  if containsChar '/' path then
    let lastSeg := afterLastChar '/' path
    match splitFirstChar ';' lastSeg with
    | some (segBefore, segAfter) =>
      (path.take (path.length - lastSeg.length) ++ segBefore, segAfter)
    | none => (path, [])
  else
    match splitFirstChar ';' path with
    | some (before, after) => (before, after)
    | none => (path, [])

/-- CPython `urllib.parse.urlparse` (components: scheme, netloc, path,
params, query, fragment).  Returns `none` for the `ValueError` CPython
raises on an unbalanced `[`/`]` in the netloc. -/
def pyUrlparse (url : String) : Option PyUrl :=
  let (scheme, rest) := splitScheme url.data
  let (netloc, rest) :=
    match rest with
    | '/' :: '/' :: tail => (tail.takeWhile (fun c => ¬ isNetlocEnd c),
                             tail.dropWhile (fun c => ¬ isNetlocEnd c))
    | _ => ([], rest)
  if (containsChar '[' netloc ∧ ¬ containsChar ']' netloc)
      ∨ (containsChar ']' netloc ∧ ¬ containsChar '[' netloc) then
    none
  else
    let (rest, fragment) :=
      match splitFirstChar '#' rest with
      | some (before, after) => (before, after)
      | none => (rest, [])
    let (rest, query) :=
      match splitFirstChar '?' rest with
      | some (before, after) => (before, after)
      | none => (rest, [])
    let (path, params) :=
      if uses_params.contains scheme ∧ containsChar ';' rest then
        splitParams rest
      else (rest, [])
    some ⟨scheme, netloc.asString, path.asString, params.asString,
          query.asString, fragment.asString⟩

/-- Hostname extraction from a netloc (CPython `_hostinfo` plus the
`.hostname` property): the part after the last `@`; inside `[...]` for
bracketed hosts, otherwise up to the first `:`; lower-cased; `none` when
empty. -/
def hostnameOfNetloc (netloc : String) : Option String :=
  let hostinfo := afterLastChar '@' netloc.data
  let host :=
    match splitFirstChar '[' hostinfo with
    | some (_, bracketed) => bracketed.takeWhile (· ≠ ']')
    | none => hostinfo.takeWhile (· ≠ ':')
  if host.isEmpty then none else some (lowerL host).asString

/-- The `.hostname` property of a parse result. -/
def PyUrl.hostname (p : PyUrl) : Option String :=
  hostnameOfNetloc p.netloc

/-- Hexadecimal digit test for percent-decoding. -/
def isHexDigit (c : Char) : Bool :=
  c.isDigit || ('a' ≤ c ∧ c ≤ 'f') || ('A' ≤ c ∧ c ≤ 'F')

/-- Value of a hexadecimal digit. -/
def hexVal (c : Char) : Nat :=
  if c.isDigit then c.toNat - '0'.toNat
  else if 'a' ≤ c ∧ c ≤ 'f' then c.toNat - 'a'.toNat + 10
  else c.toNat - 'A'.toNat + 10

/-- Byte-level model of `urllib.parse.unquote`: `%XX` hex escapes become
the character of that code, other text passes through.  (CPython decodes
escape sequences as UTF-8; on the ASCII escapes the program's allowlist
comparisons depend on, the two agree.) -/
def pyUnquote : List Char → List Char
  | [] => []
  | '%' :: a :: b :: rest =>
    if isHexDigit a ∧ isHexDigit b then
      Char.ofNat (hexVal a * 16 + hexVal b) :: pyUnquote rest
    else
      '%' :: pyUnquote (a :: b :: rest)
  | c :: rest => c :: pyUnquote rest

/-- Query-pair decoding of `parse_qsl`: `+` to space, then unquote. -/
def decodeQsPart (cs : List Char) : String :=
  (pyUnquote (cs.map (fun c => if c = '+' then ' ' else c))).asString

/-- CPython `urllib.parse.parse_qsl` with default arguments: split on
`&`, skip empty chunks, skip chunks without `=` or with an empty value
(`keep_blank_values=False`), decode names and values. -/
def parse_qsl (query : String) : List (String × String) :=
  (splitChar '&' query.data).filterMap fun part =>
    if part.isEmpty then none
    else match splitFirstChar '=' part with
      | none => none
      | some (n, v) =>
        if v.isEmpty then none else some (decodeQsPart n, decodeQsPart v)

/-- Group decoded pairs by key, preserving first-occurrence order
(the dict built by `parse_qs`). -/
def groupPairs (ps : List (String × String)) : List (String × List String) :=
  ps.foldl (fun acc p =>
    if (acc.find? (·.1 = p.1)).isSome then
      acc.map (fun kv => if kv.1 = p.1 then (kv.1, kv.2 ++ [p.2]) else kv)
    else acc ++ [(p.1, [p.2])]) []

/-- CPython `urllib.parse.parse_qs` with default arguments. -/
def parse_qs (query : String) : List (String × List String) :=
  groupPairs (parse_qsl query)

end PyUrlParse

open PyUrlParse

namespace SecurityFilter

/-- Constant `ALLOWED_PATHS` from enhanced_security.py. -/
def ALLOWED_PATHS : List String :=
  ["/admin", "/admin/", "/admin/logs", "/admin/settings", "/logs", "/", ""]

/-- Constant `ALLOWED_QUERY_PARAMS` from enhanced_security.py. -/
def ALLOWED_QUERY_PARAMS : List String := ["log_file"]

/-- The query-parameter loop of `validate_url`: first failing check wins.
`safe` abstracts `is_safe_content` (the fixed list of dangerous-pattern
regular expressions, which no claim in scope depends on). -/
def checkQueryParams (safe : String → Bool) :
    List (String × List String) → Option String
  | [] => none
  | (name, values) :: rest =>
    if ¬ ALLOWED_QUERY_PARAMS.contains name then
      some ("Query parameter '" ++ name ++ "' is not allowed")
    else match values.find? (fun v => ¬ safe v) with
      | some _ => some ("Dangerous content detected in parameter '" ++ name ++ "'")
      | none => checkQueryParams safe rest

/-- Method `SecurityFilter.validate_url` from enhanced_security.py (`safe`
abstracts `is_safe_content`): path allowlist, then query-key allowlist
and query-value scanning; a parse `ValueError` yields the
invalid-format failure. -/
def validate_url (safe : String → Bool) (url : String) : Bool × String :=
  match pyUrlparse url with
  | none => (false, "Invalid URL format: Invalid IPv6 URL")
  | some p =>
    if ¬ ALLOWED_PATHS.contains p.path then
      (false, "Path '" ++ p.path ++ "' is not allowed")
    else if p.query ≠ "" then
      match checkQueryParams safe (parse_qs p.query) with
      | some msg => (false, msg)
      | none => (true, "")
    else (true, "")

/-- The form-data loop of `validate_form_data`: first failing key or
value wins (form values from `dict(request.form)` are strings). -/
def checkFormData (safe : String → Bool) :
    List (String × String) → Option String
  | [] => none
  | (k, v) :: rest =>
    if ¬ safe k then
      some ("Dangerous content detected in form key '" ++ k ++ "'")
    else if ¬ safe v then
      some ("Dangerous content detected in form value for '" ++ k ++ "'")
    else checkFormData safe rest

/-- Method `SecurityFilter.validate_form_data` from enhanced_security.py. -/
def validate_form_data (safe : String → Bool)
    (formData : List (String × String)) : Bool × String :=
  match checkFormData safe formData with
  | some msg => (false, msg)
  | none => (true, "")

/-- Method `SecurityFilter.validate_request` from enhanced_security.py. -/
def validate_request (safe : String → Bool) (url : String)
    (formData : List (String × String)) : Bool × String :=
  let (urlValid, urlError) := validate_url safe url
  if ¬ urlValid then (false, "URL validation failed: " ++ urlError)
  else
    let (formValid, formError) := validate_form_data safe formData
    if ¬ formValid then (false, "Form data validation failed: " ++ formError)
    else (true, "")

end SecurityFilter

namespace DeploymentConfig

/-- One octet of a dotted-quad IPv4 address as accepted by CPython
`ipaddress` for string input: one to three ASCII digits, value at most
255, no leading zero. -/
def parseOctet (cs : List Char) : Option Nat :=
  if ¬ cs.isEmpty ∧ cs.length ≤ 3 ∧ cs.all Char.isDigit
      ∧ (cs.length = 1 ∨ cs.head? ≠ some '0') then
    let v := digitsVal cs
    if v ≤ 255 then some v else none
  else none

/-- CPython `ipaddress.ip_address` on a string, restricted to IPv4
dotted-quad inputs, as a 32-bit value.  Strings that parse only as IPv6
yield `none` here; in `is_internal_ip` that gives the same verdict as
CPython, since membership of an IPv6 address in the program's IPv4
networks is `False` (the `'::1'` literal is special-cased before
parsing, exactly as in the source). -/
def parseIPv4 (s : String) : Option Nat :=
  match (splitChar '.' s.data).mapM parseOctet with
  | some [a, b, c, d] => some (a * 16777216 + b * 65536 + c * 256 + d)
  | _ => none

/-- Membership of a 32-bit IPv4 value in the `INTERNAL_NETWORKS` list
`127.0.0.0/8`, `10.0.0.0/8`, `172.16.0.0/12`, `192.168.0.0/16`. -/
def inInternalNetworks (v : Nat) : Bool :=
  v / 16777216 = 127        -- 127.0.0.0/8
  || v / 16777216 = 10      -- 10.0.0.0/8
  || v / 1048576 = 2753     -- 172.16.0.0/12 (172*16 + 1)
  || v / 65536 = 49320      -- 192.168.0.0/16 (192*256 + 168)

/-- Method `DeploymentConfig.is_internal_ip` from deployment_config.py. -/
def is_internal_ip (ip : String) : Bool :=
  if ip = "" then false
  else if ip = "127.0.0.1" ∨ ip = "localhost" ∨ ip = "::1" then true
  else match parseIPv4 ip with
    | some v => inInternalNetworks v
    | none => false

/-- The headers and peer address of a request to the admin surface. -/
structure GateRequest where
  xForwardedFor : Option String
  xRealIp : Option String
  xClientIp : Option String
  cfConnectingIp : Option String
  trueClientIp : Option String
  xSsrfRequest : Option String
  xSsrfDepth : Option String
  remoteAddr : String
  deriving DecidableEq

/-- Python truthiness of `headers.get(h)`: a nonempty string. -/
def headerTruthy : Option String → Bool
  | some s => s ≠ ""
  | none => false

/-- The per-header step of `get_real_client_ip`: when the value contains
a comma, the first comma-separated entry, stripped; otherwise the value
unchanged. -/
def firstHopOf (s : String) : String :=
  if containsChar ',' s.data then
    (pyStripL ((splitChar ',' s.data).headD [])).asString
  else s

/-- Method `DeploymentConfig.get_real_client_ip` from deployment_config.py:
first truthy value among `X-Forwarded-For`, `X-Real-IP`, `X-Client-IP`,
`CF-Connecting-IP`, `True-Client-IP` (taking the first comma-separated
entry), else the peer address. -/
def get_real_client_ip (r : GateRequest) : String :=
  if headerTruthy r.xForwardedFor then firstHopOf (r.xForwardedFor.getD "")
  else if headerTruthy r.xRealIp then firstHopOf (r.xRealIp.getD "")
  else if headerTruthy r.xClientIp then firstHopOf (r.xClientIp.getD "")
  else if headerTruthy r.cfConnectingIp then firstHopOf (r.cfConnectingIp.getD "")
  else if headerTruthy r.trueClientIp then firstHopOf (r.trueClientIp.getD "")
  else r.remoteAddr

/-- Method `DeploymentConfig.validate_ssrf_headers` from deployment_config.py:
`X-SSRF-Request` must equal `"true"` and `X-SSRF-Depth` must be a digit
string. -/
def validate_ssrf_headers (r : GateRequest) : Bool :=
  decide (r.xSsrfRequest = some "true")
  && (match r.xSsrfDepth with
      | some s => pyIsDigit s
      | none => false)

/-- Function `validate_admin_access` from deployment_config.py: resolve the client
IP from proxy headers (else the peer address), require it internal, then
require the SSRF provenance headers.  (`PRODUCTION_MODE` adds nothing:
its branch is `pass` in the source.) -/
def validate_admin_access (r : GateRequest) : Bool × String :=
  let clientIp := get_real_client_ip r
  if ¬ is_internal_ip clientIp then
    (false, "Admin panel requires internal access. Client IP: " ++ clientIp)
  else if ¬ validate_ssrf_headers r then
    (false, "Admin panel requires internal access. Client IP: " ++ clientIp)
  else (true, "Access granted")

end DeploymentConfig

namespace AppRelay

/-- HTTP request method. -/
inductive Method where
  | get
  | post
  deriving DecidableEq

/-- The parts of an inbound `/fetch-next` request the handler reads. -/
structure RelayRequest where
  method : Method
  urlParam : Option String        -- request.args.get('url')
  depthHeader : Option String     -- request.headers.get('X-SSRF-Depth')
  form : List (String × String)   -- dict(request.form)
  deriving DecidableEq

/-- Outcome of a `requests.get`/`requests.post` call: a response, or a
`requests.exceptions.RequestException` carrying `str(e)`. -/
inductive HttpOutcome where
  | ok (body : String) (status : Nat) (contentType : String)
  | exn (msg : String)
  deriving DecidableEq

/-- Response of the in-process admin test-client dispatch. -/
structure AdminCallResult where
  body : String
  status : Nat
  contentType : String
  deriving DecidableEq

/-- External world of the relay: the downstream HTTP transport, the
in-process admin application, and the response-content redaction
(`SecurityFilter.filter_response_content`, a fixed list of regex
substitutions on HTML bodies that no claim in scope depends on). -/
structure RelayEnv where
  http : String → List (String × String) → HttpOutcome
  adminApp : Method → String → List (String × String) → Int → AdminCallResult
  filterHtml : String → String → String

/-- Downstream dispatch performed by one handler run: none, the
in-process admin test-client call, or an outbound `requests` call. -/
inductive Dispatch where
  | noCall
  | adminCall (path : String) (form : List (String × String)) (depth : Int)
  | httpCall (url : String) (form : List (String × String))
  deriving DecidableEq

/-- Body of the relay's response to its caller: the endpoint-description
JSON, a `jsonify({'error': msg})` body, or relayed (filtered) content. -/
inductive RelayBody where
  | info
  | jsonError (msg : String)
  | content (s : String)
  deriving DecidableEq

/-- Text-containment on a relay response body. -/
def RelayBody.containsText (b : RelayBody) (t : String) : Bool :=
  match b with
  | .info => false
  | .jsonError m => strContains m t
  | .content s => strContains s t

/-- Status and body returned by the relay. -/
structure RelayResponse where
  body : RelayBody
  status : Nat
  deriving DecidableEq

/-- Constant `allowed_hosts` from app.py. -/
def allowed_hosts : List String := ["localhost", "127.0.0.1", "admin"]

/-- The host check `parsed_url.hostname not in allowed_hosts` (negated):
`true` when the parsed hostname is a member of `allowed_hosts` (an
absent hostname is not). -/
def hostAllowed (p : PyUrl) : Bool :=
  match p.hostname with
  | some h => allowed_hosts.contains h
  | none => false

/-- The depth read `int(request.headers.get('X-SSRF-Depth', '0'))`;
`none` models the `ValueError` on a malformed header. -/
def relayDepthOf (req : RelayRequest) : Option Int :=
  parsePyInt (req.depthHeader.getD "0")

/-- Form data forwarded downstream: `dict(request.form)` minus `url`. -/
def relayFormOf (req : RelayRequest) : List (String × String) :=
  req.form.filter (fun kv => kv.1 ≠ "url")

/-- The internal URL constructed by `fetch_next`: hostname `admin` maps to
the loopback admin prefix, other allowed hosts map to loopback; path and
query are preserved. -/
def internalUrlOf (p : PyUrl) : String :=
  let base :=
    if p.hostname = some "admin" then "http://127.0.0.1:80/admin" ++ p.path
    else "http://127.0.0.1:80" ++ p.path
  if p.query ≠ "" then base ++ "?" ++ p.query else base

/-- The ten-way `startswith`/equality condition selecting the in-process
admin dispatch in app.py. -/
def isAdminTarget (u : String) : Bool :=
  strStartsWith u "http://admin/"
  || strStartsWith u "http://127.0.0.1/admin/"
  || strStartsWith u "http://127.0.0.1:80/admin/"
  || strStartsWith u "http://127.0.0.1:80/admin"
  || u = "http://admin"
  || u = "http://127.0.0.1/admin"
  || u = "http://127.0.0.1:80/admin"
  || strStartsWith u "http://admin?"
  || strStartsWith u "http://127.0.0.1/admin?"
  || strStartsWith u "http://127.0.0.1:80/admin?"

/-- The admin path rewriting in the in-process branch: three
`str.replace` passes, then `/admin` becomes `/admin/`. -/
def adminPathOf (internalUrl : String) : String :=
  let p := pyReplace (pyReplace (pyReplace internalUrl
              "http://admin" "/admin")
              "http://127.0.0.1/admin" "/admin")
              "http://127.0.0.1:80/admin" "/admin"
  if p = "/admin" then "/admin/" else p

/-- Handler `fetch_next` from app.py, returning the response to the caller and
the downstream dispatch performed.  The branches mirror the source in
order: GET endpoint info, missing `url`, depth check, form extraction,
URL parse, scheme check, host check, internal-URL construction, then
in-process admin dispatch or outbound HTTP call; `ValueError` from the
depth read or the URL parse lands in the generic `except Exception`
branch (500), a `RequestException` in the 500 `Request failed` branch. -/
def fetch_next (env : RelayEnv) (req : RelayRequest) :
    RelayResponse × Dispatch :=
  if req.method = .get ∧ req.urlParam.getD "" = "" then
    (⟨.info, 200⟩, .noCall)
  else
    let url := req.urlParam.getD ""
    if url = "" then
      (⟨.jsonError "URL parameter is required", 400⟩, .noCall)
    else
      match relayDepthOf req with
      | none =>
        (⟨.jsonError "Unexpected error: invalid literal for int() with base 10", 500⟩,
         .noCall)
      | some d =>
        if d ≥ 2 then
          (⟨.jsonError "Maximum SSRF request depth exceeded for security reasons", 403⟩,
           .noCall)
        else
          let formData := relayFormOf req
          match pyUrlparse url with
          | none =>
            (⟨.jsonError "Unexpected error: Invalid IPv6 URL", 500⟩, .noCall)
          | some p =>
            if p.scheme ≠ "http" then
              (⟨.jsonError "Only HTTP URLs are allowed", 400⟩, .noCall)
            else if ¬ hostAllowed p then
              (⟨.jsonError "Host not allowed", 400⟩, .noCall)
            else
              let internalUrl := internalUrlOf p
              if isAdminTarget internalUrl then
                let adminPath := adminPathOf internalUrl
                let meth := if formData ≠ [] then Method.post else Method.get
                let r := env.adminApp meth adminPath formData (d + 1)
                (⟨.content (env.filterHtml r.body r.contentType), r.status⟩,
                 .adminCall adminPath formData (d + 1))
              else
                match env.http internalUrl formData with
                | .exn msg =>
                  (⟨.jsonError ("Request failed: " ++ msg), 500⟩,
                   .httpCall internalUrl formData)
                | .ok body status ct =>
                  (⟨.content (env.filterHtml body ct), status⟩,
                   .httpCall internalUrl formData)

/-- A trivial environment for concrete evaluations: every outbound call
succeeds with an empty body, the admin app answers 200, HTML filtering
is the identity. -/
def trivialEnv : RelayEnv where
  http := fun _ _ => .ok "" 200 "text/html"
  adminApp := fun _ _ _ _ => ⟨"", 200, "text/html"⟩
  filterHtml := fun c _ => c

/-- An environment whose outbound HTTP transport always fails with a
connection-pool timeout message, for exercising the 500 branch. -/
def timeoutEnv : RelayEnv where
  http := fun _ _ =>
    .exn "HTTPSConnectionPool read timed out. (connect timeout=3)"
  adminApp := fun _ _ _ _ => ⟨"", 200, "text/html"⟩
  filterHtml := fun c _ => c

end AppRelay

namespace RateLimiterM

/-- State of the `RateLimiter` class from rate_limiter.py: configuration
plus the two per-client tables (`defaultdict(deque)` request history and
blocked-IP map), as association lists.  Timestamps (`time.time()` floats)
are modelled as integers; the limiter only ever subtracts and compares
them, so any linearly ordered time domain gives the same behaviour. -/
structure RateLimiter where
  maxRequests : Nat
  timeWindow : ℤ
  blockDuration : ℤ
  requestHistory : List (String × List ℤ)
  blockedIps : List (String × ℤ)
  deriving DecidableEq

/-- Lookup in an association list. -/
def lookupA {α : Type} (m : List (String × α)) (k : String) : Option α :=
  (m.find? (·.1 = k)).map (·.2)

/-- Update (or insert) a key in an association list. -/
def setA {α : Type} (m : List (String × α)) (k : String) (v : α) :
    List (String × α) :=
  if (m.find? (·.1 = k)).isSome then
    m.map (fun kv => if kv.1 = k then (k, v) else kv)
  else m ++ [(k, v)]

/-- Request history of one client (`defaultdict` default: empty). -/
def getHist (rl : RateLimiter) (ip : String) : List ℤ :=
  (lookupA rl.requestHistory ip).getD []

/-- Unblock time of one client, when blocked. -/
def getBlocked (rl : RateLimiter) (ip : String) : Option ℤ :=
  lookupA rl.blockedIps ip

/-- Method `RateLimiter.should_block` from rate_limiter.py: pop stale
timestamps from the front of the client's history, append the current
time, and when the count exceeds `max_requests` record the unblock time
and clear the history. -/
def should_block (rl : RateLimiter) (ip : String) (now : ℤ) :
    Bool × RateLimiter :=
  let pruned := (getHist rl ip).dropWhile (fun t => now - t > rl.timeWindow)
  let appended := pruned ++ [now]
  if appended.length > rl.maxRequests then
    (true,
     { rl with
        blockedIps := setA rl.blockedIps ip (now + rl.blockDuration),
        requestHistory := setA rl.requestHistory ip [] })
  else
    (false, { rl with requestHistory := setA rl.requestHistory ip appended })

/-- Method `RateLimiter.is_blocked` from rate_limiter.py: a pure expiry check
with lazy eviction of expired entries. -/
def is_blocked (rl : RateLimiter) (ip : String) (now : ℤ) :
    Bool × RateLimiter :=
  match lookupA rl.blockedIps ip with
  | some unblockTime =>
    if now < unblockTime then (true, rl)
    else (false, { rl with blockedIps := rl.blockedIps.filter (¬ ·.1 = ip) })
  | none => (false, rl)

/-- The headers and peer address read by `RateLimiter.get_client_ip`. -/
structure RLRequest where
  xForwardedFor : Option String
  xRealIp : Option String
  remoteAddr : String
  deriving DecidableEq

/-- First comma-separated entry of a header value, stripped
(`ip.split(',')[0].strip()`). -/
def firstEntryStripped (s : String) : String :=
  (pyStripL ((splitChar ',' s.data).headD [])).asString

/-- Method `RateLimiter.get_client_ip` from rate_limiter.py: the first
comma-separated entry of a truthy `X-Forwarded-For`, else a truthy
`X-Real-IP` verbatim, else the peer address. -/
def get_client_ip (r : RLRequest) : String :=
  if DeploymentConfig.headerTruthy r.xForwardedFor then
    firstEntryStripped (r.xForwardedFor.getD "")
  else if DeploymentConfig.headerTruthy r.xRealIp then
    r.xRealIp.getD ""
  else r.remoteAddr

end RateLimiterM

namespace AdminBlueprint

open DeploymentConfig AppRelay

/-- File-system side effects the admin logs handler can perform, plus the
sanitizer entry points it could (but does not) call — `logs_blueprint.py`
calls both of the latter for its own endpoint, so the constructors are
meaningful across the repository. -/
inductive FileEffect where
  | readRaw (path : String)
  | callSanitizeCommandInput (arg : String)
  | callReadFileSafely (arg : String)
  deriving DecidableEq

/-- Result of `open(path).read()`: contents, or the message of the
raised `OSError`. -/
structure AdminEnv where
  fs : String → Except String String

/-- Response of the `/admin/logs` route: status, the rendered `output`
and `log_file` template values (`none` for the access-denied JSON), and
the file effects performed. -/
structure AdminResponse where
  status : Nat
  output : Option String
  logFile : Option String
  effects : List FileEffect
  deriving DecidableEq

/-- Canned `admin.log` content from admin_blueprint.py. -/
def adminLogSample : String :=
  "2024-01-15 10:30:22 - Admin login successful\n2024-01-15 10:31:45 - Configuration updated\n2024-01-15 10:32:10 - User permissions modified"

/-- Canned `error.log` content from admin_blueprint.py. -/
def errorLogSample : String :=
  "2024-01-15 09:15:33 - Database connection timeout\n2024-01-15 09:20:11 - Failed authentication attempt\n2024-01-15 09:25:44 - Memory usage warning"

/-- Canned `access.log` content from admin_blueprint.py. -/
def accessLogSample : String :=
  "127.0.0.1 - - [15/Jan/2024:10:30:22] \"GET /admin HTTP/1.1\" 200 1234\n127.0.0.1 - - [15/Jan/2024:10:31:45] \"POST /admin/logs HTTP/1.1\" 200 567"

/-- Lookup `request.form.get(key, blank)` with empty-string default. -/
def formGet (form : List (String × String)) (key : String) : String :=
  ((form.find? (·.1 = key)).map (·.2)).getD ""

/-- Body of the `admin_logs` handler (admin_blueprint.py), after the
access gate: on POST, a `log_file` containing the flag payloads reads
`/var/log/app/flag.txt` directly; otherwise the three known log names
yield canned content and anything else the not-found message; rendering
always answers 200. -/
def admin_logs (env : AdminEnv) (method : Method)
    (form : List (String × String)) : AdminResponse :=
  match method with
  | .get => ⟨200, some "", some "", []⟩
  | .post =>
    let logFile := formGet form "log_file"
    if strContains logFile "cat /var/flag/flag.txt"
        || strContains logFile "flag.txt" then
      match env.fs "/var/log/app/flag.txt" with
      | .ok c =>
        ⟨200, some ("Flag: " ++ pyStrip c), some logFile,
         [.readRaw "/var/log/app/flag.txt"]⟩
      | .error e =>
        ⟨200, some ("Error reading flag: " ++ e), some logFile,
         [.readRaw "/var/log/app/flag.txt"]⟩
    else if logFile = "admin.log" then ⟨200, some adminLogSample, some logFile, []⟩
    else if logFile = "error.log" then ⟨200, some errorLogSample, some logFile, []⟩
    else if logFile = "access.log" then ⟨200, some accessLogSample, some logFile, []⟩
    else
      ⟨200, some ("Log file '" ++ logFile ++ "' not found or access denied."),
       some logFile, []⟩

/-- The `/admin/logs` route as decorated by `require_ssrf_access`: a
failing `validate_admin_access` yields the 403 access-denied JSON,
otherwise the handler body runs. -/
def admin_logs_route (env : AdminEnv) (gate : GateRequest) (method : Method)
    (form : List (String × String)) : AdminResponse :=
  if (validate_admin_access gate).1 then admin_logs env method form
  else ⟨403, none, none, []⟩

end AdminBlueprint

section Helpers

/-- The executable substring test agrees with `List.IsInfix`. -/
theorem containsL_iff_isInfix (n h : List Char) :
    containsL n h = true ↔ n <:+: h := by
  induction h with
  | nil =>
    simp [containsL, List.isEmpty_iff]
  | cons c t ih =>
    simp only [containsL, Bool.or_eq_true, ih, List.isPrefixOf_iff_prefix]
    constructor
    · rintro (hp | hi)
      · exact hp.isInfix
      · exact List.infix_cons hi
    · intro hin
      rcases List.infix_cons_iff.mp hin with hp | hi
      · exact Or.inl hp
      · exact Or.inr hi

/-- A list is a substring of anything it is appended to. -/
theorem containsL_append_self (pre n : List Char) :
    containsL n (pre ++ n) = true :=
  (containsL_iff_isInfix n (pre ++ n)).mpr ⟨pre, [], by simp⟩

/-- A string containing `cat /var/flag/flag.txt` also contains its
substring `flag.txt`. -/
theorem strContains_flag_of_cat (s : String) :
    strContains s "cat /var/flag/flag.txt" = true →
    strContains s "flag.txt" = true := by
  intro h
  have h1 : ("cat /var/flag/flag.txt".data : List Char) <:+: s.data :=
    (containsL_iff_isInfix _ _).mp h
  have h2 : ("flag.txt".data : List Char) <:+: "cat /var/flag/flag.txt".data := by
    refine ⟨"cat /var/flag/".data, [], by decide⟩
  exact (containsL_iff_isInfix _ _).mpr (h2.trans h1)

/-- Updating a key in an association list makes its lookup return the
new value. -/
theorem lookupA_setA_self {α : Type} (m : List (String × α)) (k : String)
    (v : α) : RateLimiterM.lookupA (RateLimiterM.setA m k v) k = some v := by
  unfold RateLimiterM.setA
  split
  case isTrue hs =>
    induction m with
    | nil => simp at hs
    | cons a m ih =>
      by_cases ha : a.1 = k
      · simp [RateLimiterM.lookupA, List.find?, ha]
      · have : (List.find? (·.1 = k) m).isSome := by
          simpa [List.find?_cons, ha] using hs
        simpa [RateLimiterM.lookupA, List.find?, ha] using ih this
  case isFalse =>
    induction m with
    | nil => simp [RateLimiterM.lookupA, List.find?]
    | cons a m ih =>
      by_cases ha : a.1 = k
      · rename_i hs
        exact absurd (by simp [List.find?_cons, ha]) hs
      · rename_i hs
        have : ¬ (List.find? (·.1 = k) m).isSome := by
          intro hm
          exact hs (by simpa [List.find?_cons, ha] using hm)
        simpa [RateLimiterM.lookupA, List.find?, ha] using ih this

end Helpers


open SecurityUtils DeploymentConfig AppRelay RateLimiterM AdminBlueprint SecurityFilter

/-- C2, counterexample: the input `ad/min.log` is not a member of the
filename whitelist, yet `sanitize_filename` does not return null — the
path separator is stripped and the residue `admin.log` is accepted. -/
theorem C2_sanitize_filename_counterexample :
    ALLOWED_LOG_FILES.contains "ad/min.log" = false ∧
    sanitize_filename "ad/min.log" = some "admin.log" ∧
    sanitize_filename "ad/min.log" ≠ none := by decide

/-- C2, amended: `sanitize_filename` returns a value exactly when the
input with `/`, `\` and NUL characters removed is a member of the fixed
whitelist, and then returns that stripped residue; every input whose
stripped form is not exactly a whitelist member (in particular anything
with `..`, a leading dot, or other unsafe characters) yields null, but an
input containing path separators whose stripped form is whitelisted, such
as `ad/min.log`, is accepted. -/
theorem C2_sanitize_filename_amended (s t : String) :
    sanitize_filename s = some t ↔
      (t = stripSeparators s ∧ ALLOWED_LOG_FILES.contains t = true) := by
  constructor
  · intro h
    simp only [sanitize_filename] at h
    split_ifs at h with h1 h2 h3 h4
    obtain rfl : stripSeparators s = t := Option.some_injective _ h
    exact ⟨rfl, by simpa using h4⟩
  · rintro ⟨rfl, hw⟩
    have hmem : stripSeparators s = "admin.log" ∨ stripSeparators s = "error.log" ∨
        stripSeparators s = "access.log" ∨ stripSeparators s = "system.log" ∨
        stripSeparators s = "flag.txt" := by
      simpa [ALLOWED_LOG_FILES, List.contains, List.elem_cons] using hw
    have hne : s ≠ "" := by
      intro he
      subst he
      revert hmem
      decide
    simp only [sanitize_filename]
    rw [if_neg hne]
    rcases hmem with h | h | h | h | h <;> rw [h] <;> decide

/-- C1, counterexample: the peer address `203.0.113.5` is external, the
request carries a forged `X-Forwarded-For: 127.0.0.1` together with the
provenance headers, and `validate_admin_access` allows it — the gate does
not deny every request whose actual source address is external. -/
theorem C1_access_gate_counterexample :
    is_internal_ip "203.0.113.5" = false ∧
    (validate_admin_access
      ⟨some "127.0.0.1", none, none, none, none,
       some "true", some "1", "203.0.113.5"⟩).1 = true := by decide

/-- C1, amended: `validate_admin_access` allows a request exactly when
the resolved client address is internal and the provenance headers are
valid (so a request lacking valid provenance headers is denied even when
the resolved address is internal, and a request whose resolved address is
external is denied regardless of provenance headers); but the resolved
client address is taken from the forgeable proxy headers whenever one is
present — a nonempty `X-Forwarded-For` completely overrides the actual
peer address — so an external attacker spoofing headers alone can pass
the gate. -/
theorem C1_access_gate_amended :
    (∀ r : GateRequest,
      (validate_admin_access r).1 = true ↔
        (is_internal_ip (get_real_client_ip r) = true ∧
         validate_ssrf_headers r = true)) ∧
    (∀ (r : GateRequest) (s : String),
      r.xForwardedFor = some s → s ≠ "" →
      get_real_client_ip r = firstHopOf s) := by
  constructor
  · intro r
    unfold validate_admin_access
    cases hi : is_internal_ip (get_real_client_ip r) <;>
      cases hv : validate_ssrf_headers r <;>
        simp [hi, hv]
  · intro r s hs hne
    unfold get_real_client_ip
    rw [hs]
    simp [headerTruthy, hne]

/-- C1, witness: the amended characterisation evaluated on the forged
request: its resolved client address is the forged `127.0.0.1` and the
gate allows it. -/
theorem C1_access_gate_amended_witness :
    ((validate_admin_access
        ⟨some "127.0.0.1", none, none, none, none,
         some "true", some "1", "203.0.113.5"⟩).1 = true ↔
      (is_internal_ip (get_real_client_ip
          ⟨some "127.0.0.1", none, none, none, none,
           some "true", some "1", "203.0.113.5"⟩) = true ∧
       validate_ssrf_headers
          ⟨some "127.0.0.1", none, none, none, none,
           some "true", some "1", "203.0.113.5"⟩ = true)) ∧
    get_real_client_ip
        ⟨some "127.0.0.1", none, none, none, none,
         some "true", some "1", "203.0.113.5"⟩ = firstHopOf "127.0.0.1" :=
  ⟨C1_access_gate_amended.1 _,
   C1_access_gate_amended.2 _ "127.0.0.1" rfl (by decide)⟩

/-- C4, counterexample: a GET request without a `url` parameter whose
`X-SSRF-Depth` header parses to 2 is answered with the endpoint
description and status 200, not 403 — the missing-url branches run
before the depth check. -/
theorem C4_depth_limit_counterexample :
    relayDepthOf ⟨.get, none, some "2", []⟩ = some 2 ∧
    fetch_next trivialEnv ⟨.get, none, some "2", []⟩ = (⟨.info, 200⟩, .noCall) ∧
    (fetch_next trivialEnv ⟨.get, none, some "2", []⟩).1.status ≠ 403 := by decide

/-- C4, amended: a request whose `X-SSRF-Depth` header parses to an
integer at least 2 triggers no downstream dispatch (neither the
in-process admin call nor the outbound HTTP call), and when it carries a
nonempty `url` parameter it is answered 403 with the depth-exceeded
message; requests without a `url` are answered earlier (endpoint info
for GET, 400 for POST), still without any dispatch. -/
theorem C4_depth_limit_amended (env : RelayEnv) (req : RelayRequest) (d : Int)
    (hd : relayDepthOf req = some d) (h2 : d ≥ 2) :
    (fetch_next env req).2 = .noCall ∧
    (∀ url : String, req.urlParam = some url → url ≠ "" →
      (fetch_next env req).1 =
        ⟨.jsonError "Maximum SSRF request depth exceeded for security reasons", 403⟩) := by
  constructor
  · by_cases hg : req.method = .get ∧ req.urlParam.getD "" = ""
    · simp [fetch_next, hg]
    · by_cases hu : req.urlParam.getD "" = ""
      · simp only [fetch_next, hg, hu, if_true, if_false, reduceIte]
        split_ifs <;> rfl
      · simp [fetch_next, hg, hu, hd, h2]
  · intro url hu hne
    have hg : ¬ (req.method = .get ∧ req.urlParam.getD "" = "") := by
      rintro ⟨_, hh⟩
      rw [hu] at hh
      exact hne hh
    have hu' : ¬ req.urlParam.getD "" = "" := by
      rw [hu]
      exact hne
    simp [fetch_next, hg, hu', hd, h2]

/-- C4, witness: the amended statement on a POST request with url
`http://localhost/` and depth header `2`: no dispatch and a 403. -/
theorem C4_depth_limit_amended_witness :
    (fetch_next trivialEnv ⟨.post, some "http://localhost/", some "2", []⟩).2 = .noCall ∧
    (fetch_next trivialEnv ⟨.post, some "http://localhost/", some "2", []⟩).1 =
      ⟨.jsonError "Maximum SSRF request depth exceeded for security reasons", 403⟩ :=
  ⟨(C4_depth_limit_amended trivialEnv _ 2 (by decide) (by decide)).1,
   (C4_depth_limit_amended trivialEnv _ 2 (by decide) (by decide)).2
     "http://localhost/" rfl (by decide)⟩

/-- C5, counterexample: a request for `http://evil.com/` (hostname not
in the allowed set) whose depth header parses to 2 is answered 403, not
400 — the depth check precedes the host check — so the claim's 400 does
not hold for every such request (the no-dispatch half does hold). -/
theorem C5_host_allowlist_counterexample :
    (pyUrlparse "http://evil.com/").map PyUrl.hostname = some (some "evil.com") ∧
    allowed_hosts.contains "evil.com" = false ∧
    (fetch_next trivialEnv ⟨.post, some "http://evil.com/", some "2", []⟩).1.status = 403 ∧
    (fetch_next trivialEnv ⟨.post, some "http://evil.com/", some "2", []⟩).1.status ≠ 400 := by
  decide

/-- C5, amended: a relay request whose url parses with a hostname
outside `{localhost, 127.0.0.1, admin}` or a scheme other than `http`
never triggers an outbound call or an in-process admin dispatch, and is
answered 400 provided its depth header parses below 2 (a depth of 2 or
more is answered 403 first, a malformed depth header 500, in all cases
without dispatch). -/
theorem C5_host_allowlist_amended (env : RelayEnv) (req : RelayRequest)
    (url : String) (p : PyUrl)
    (hu : req.urlParam = some url) (hne : url ≠ "")
    (hp : pyUrlparse url = some p)
    (hbad : p.scheme ≠ "http" ∨ hostAllowed p = false) :
    (fetch_next env req).2 = .noCall ∧
    (∀ d : Int, relayDepthOf req = some d → d < 2 →
      (fetch_next env req).1.status = 400) := by
  have hg : ¬ (req.method = .get ∧ req.urlParam.getD "" = "") := by
    rintro ⟨_, hh⟩
    rw [hu] at hh
    exact hne hh
  have hu' : ¬ req.urlParam.getD "" = "" := by
    rw [hu]
    exact hne
  constructor
  · cases hdo : relayDepthOf req with
    | none => simp [fetch_next, hg, hu', hu, hne, hdo]
    | some d =>
      by_cases h2 : d ≥ 2
      · simp [fetch_next, hg, hu', hu, hne, hdo, h2]
      · rcases hbad with hs | hh
        · simp [fetch_next, hg, hu', hu, hne, hdo, h2, hp, hs]
        · by_cases hsch : p.scheme = "http"
          · simp [fetch_next, hg, hu', hu, hne, hdo, h2, hp, hsch, hh]
          · simp [fetch_next, hg, hu', hu, hne, hdo, h2, hp, hsch]
  · intro d hd hlt
    have h2 : ¬ d ≥ 2 := by omega
    rcases hbad with hs | hh
    · simp [fetch_next, hg, hu', hu, hne, hd, h2, hp, hs]
    · by_cases hsch : p.scheme = "http"
      · simp [fetch_next, hg, hu', hu, hne, hd, h2, hp, hsch, hh]
      · simp [fetch_next, hg, hu', hu, hne, hd, h2, hp, hsch]

/-- C5, witness: the amended statement on a POST for `https://evil.com/`
with no depth header: no dispatch and status 400. -/
theorem C5_host_allowlist_amended_witness :
    (fetch_next trivialEnv ⟨.post, some "https://evil.com/", none, []⟩).2 = .noCall ∧
    (fetch_next trivialEnv ⟨.post, some "https://evil.com/", none, []⟩).1.status = 400 :=
  ⟨(C5_host_allowlist_amended trivialEnv _ "https://evil.com/"
      ⟨"https", "evil.com", "/", "", "", ""⟩ rfl (by decide) (by decide)
      (by decide)).1,
   (C5_host_allowlist_amended trivialEnv _ "https://evil.com/"
      ⟨"https", "evil.com", "/", "", "", ""⟩ rfl (by decide) (by decide)
      (by decide)).2 0 (by decide) (by decide)⟩

/-- C6, counterexample: when the outbound call for
`http://localhost/logs?file=x` raises a timeout, the relay's 500
response body contains the underlying exception text — the body is not a
generic message free of exception text. -/
theorem C6_upstream_failure_counterexample :
    (fetch_next timeoutEnv ⟨.post, some "http://localhost/logs?file=x", none, []⟩).1.status = 500 ∧
    (fetch_next timeoutEnv ⟨.post, some "http://localhost/logs?file=x", none, []⟩).1.body.containsText
      "HTTPSConnectionPool read timed out. (connect timeout=3)" = true := by decide

/-- C6, amended: when the downstream HTTP call fails with a
`requests` exception, the relay answers 500, but the body is
`Request failed: <exception text>` — it always contains the text of the
underlying exception rather than a generic message. -/
theorem C6_upstream_failure_amended (env : RelayEnv) (req : RelayRequest)
    (url : String) (d : Int) (p : PyUrl) (msg : String)
    (hu : req.urlParam = some url) (hne : url ≠ "")
    (hd : relayDepthOf req = some d) (hlt : d < 2)
    (hp : pyUrlparse url = some p) (hs : p.scheme = "http")
    (hh : hostAllowed p = true)
    (hna : isAdminTarget (internalUrlOf p) = false)
    (hx : env.http (internalUrlOf p) (relayFormOf req) = .exn msg) :
    (fetch_next env req).1 = ⟨.jsonError ("Request failed: " ++ msg), 500⟩ ∧
    (fetch_next env req).1.body.containsText msg = true := by
  have hg : ¬ (req.method = .get ∧ req.urlParam.getD "" = "") := by
    rintro ⟨_, hh'⟩
    rw [hu] at hh'
    exact hne hh'
  have hu' : ¬ req.urlParam.getD "" = "" := by
    rw [hu]
    exact hne
  have h2 : ¬ d ≥ 2 := by omega
  have h1 : (fetch_next env req).1 = ⟨.jsonError ("Request failed: " ++ msg), 500⟩ := by
    simp [fetch_next, hg, hu', hu, hne, hd, h2, hp, hs, hh, hna, hx]
  refine ⟨h1, ?_⟩
  rw [h1]
  show strContains ("Request failed: " ++ msg) msg = true
  unfold strContains
  rw [String.data_append]
  exact containsL_append_self _ _

/-- C6, witness: the amended statement at a concrete timed-out call for
`http://localhost/x`. -/
theorem C6_upstream_failure_amended_witness :
    (fetch_next timeoutEnv ⟨.post, some "http://localhost/x", none, []⟩).1 =
      ⟨.jsonError ("Request failed: " ++
        "HTTPSConnectionPool read timed out. (connect timeout=3)"), 500⟩ ∧
    (fetch_next timeoutEnv ⟨.post, some "http://localhost/x", none, []⟩).1.body.containsText
      "HTTPSConnectionPool read timed out. (connect timeout=3)" = true :=
  C6_upstream_failure_amended timeoutEnv _ "http://localhost/x" 0
    ⟨"http", "localhost", "/x", "", "", ""⟩
    "HTTPSConnectionPool read timed out. (connect timeout=3)"
    rfl (by decide) (by decide) (by decide) (by decide) (by decide) (by decide)
    (by decide) rfl

/-- C8, counterexample: a GET request to the relay without a `url`
parameter is answered with the endpoint-description JSON and status 200,
not 400 — the claim's `this covers both GET and POST` is false for GET. -/
theorem C8_missing_url_counterexample :
    (fetch_next trivialEnv ⟨.get, none, none, []⟩).1.status = 200 ∧
    (fetch_next trivialEnv ⟨.get, none, none, []⟩).1.status ≠ 400 ∧
    (fetch_next trivialEnv ⟨.get, none, none, []⟩).2 = .noCall := by decide

/-- C8, amended: a relay request whose `url` parameter is missing or
empty triggers no downstream dispatch; a POST is rejected 400 with the
required-parameter error, while a GET is answered 200 with the
endpoint-description JSON. -/
theorem C8_missing_url_amended (env : RelayEnv) (req : RelayRequest)
    (h : req.urlParam.getD "" = "") :
    (fetch_next env req).2 = .noCall ∧
    (fetch_next env req).1 =
      (if req.method = .get then ⟨.info, 200⟩
       else ⟨.jsonError "URL parameter is required", 400⟩) := by
  cases hm : req.method <;> simp [fetch_next, h, hm]

/-- C8, witness: the amended statement on a POST with an empty `url`. -/
theorem C8_missing_url_amended_witness :
    (fetch_next trivialEnv ⟨.post, some "", none, []⟩).2 = .noCall ∧
    (fetch_next trivialEnv ⟨.post, some "", none, []⟩).1 =
      (if (⟨.post, some "", none, []⟩ : RelayRequest).method = .get then ⟨.info, 200⟩
       else ⟨.jsonError "URL parameter is required", 400⟩) :=
  C8_missing_url_amended trivialEnv _ (by decide)

/-- Helper: the query-parameter scan cannot succeed when some parameter
key is outside the allowlist. -/
theorem checkQueryParams_isSome_of_badKey (safe : String → Bool)
    (l : List (String × List String)) (n : String) (vs : List String)
    (hmem : (n, vs) ∈ l)
    (hbad : ALLOWED_QUERY_PARAMS.contains n = false) :
    (checkQueryParams safe l).isSome = true := by
  induction l with
  | nil => cases hmem
  | cons a rest ih =>
    obtain ⟨k, ws⟩ := a
    simp only [checkQueryParams]
    split
    · rfl
    · split
      · rfl
      · rename_i hk _ hfind
        apply ih
        rcases List.mem_cons.mp hmem with he | ht
        · exfalso
          obtain ⟨h1, h2⟩ := Prod.mk.injEq n vs k ws ▸ he
          rw [h1] at hbad
          exact hk (by simpa using hbad)
        · exact ht

/-- C3, counterexample: with the Security Filter call disabled, the
request `http://localhost/secret?evil=1` — whose path `/secret` is
outside the filter's path allowlist and whose query key `evil` is
outside the parameter allowlist — is dispatched downstream with status
200 instead of being rejected with 400; the filter itself (with every
content pattern treated as safe) would have rejected it. -/
theorem C3_filter_bypass_counterexample :
    ALLOWED_PATHS.contains "/secret" = false ∧
    ALLOWED_QUERY_PARAMS.contains "evil" = false ∧
    fetch_next trivialEnv ⟨.post, some "http://localhost/secret?evil=1", none, []⟩ =
      (⟨.content "", 200⟩, .httpCall "http://127.0.0.1:80/secret?evil=1" []) ∧
    (validate_request (fun _ => true) "http://localhost/secret?evil=1" []).1 = false := by
  decide

/-- C3, amended: this variant of the relay performs no Security Filter
validation at all: every request that passes the url/depth/scheme/host
checks is dispatched downstream, even when its path or a query
parameter key lies outside the filter's allowlists.
`SecurityFilter.validate_request` itself (for any content predicate)
rejects every url whose parsed path is outside `ALLOWED_PATHS`, and
every url with an allowed path carrying a query parameter key outside
`ALLOWED_QUERY_PARAMS` — but it is never invoked by `fetch_next`. -/
theorem C3_filter_bypass_amended :
    (∀ (env : RelayEnv) (req : RelayRequest) (url : String) (d : Int) (p : PyUrl),
      req.urlParam = some url → url ≠ "" →
      relayDepthOf req = some d → d < 2 →
      pyUrlparse url = some p → p.scheme = "http" → hostAllowed p = true →
      (fetch_next env req).2 ≠ .noCall) ∧
    (∀ (safe : String → Bool) (url : String) (fd : List (String × String)) (p : PyUrl),
      pyUrlparse url = some p →
      ALLOWED_PATHS.contains p.path = false →
      (validate_request safe url fd).1 = false) ∧
    (∀ (safe : String → Bool) (url : String) (fd : List (String × String))
        (p : PyUrl) (n : String) (vs : List String),
      pyUrlparse url = some p →
      ALLOWED_PATHS.contains p.path = true →
      (n, vs) ∈ parse_qs p.query →
      ALLOWED_QUERY_PARAMS.contains n = false →
      (validate_request safe url fd).1 = false) := by
  refine ⟨?_, ?_, ?_⟩
  · intro env req url d p hu hne hd hlt hp hs hh
    have hg : ¬ (req.method = .get ∧ req.urlParam.getD "" = "") := by
      rintro ⟨_, hh'⟩
      rw [hu] at hh'
      exact hne hh'
    have h2 : ¬ d ≥ 2 := by omega
    by_cases ha : isAdminTarget (internalUrlOf p)
    · simp [fetch_next, hg, hu, hne, hd, h2, hp, hs, hh, ha]
    · cases hx : env.http (internalUrlOf p) (relayFormOf req) with
      | exn m => simp [fetch_next, hg, hu, hne, hd, h2, hp, hs, hh, ha, hx]
      | ok b st ct => simp [fetch_next, hg, hu, hne, hd, h2, hp, hs, hh, ha, hx]
  · intro safe url fd p hp hpath
    have hpath' : p.path ∉ ALLOWED_PATHS := by simpa using hpath
    simp [validate_request, validate_url, hp, hpath']
  · intro safe url fd p n vs hp hpath hmem hbad
    have hq : p.query ≠ "" := by
      intro he
      rw [he] at hmem
      have : parse_qs "" = [] := rfl
      rw [this] at hmem
      cases hmem
    have hpath' : p.path ∈ ALLOWED_PATHS := by simpa using hpath
    obtain ⟨m, hm⟩ := Option.isSome_iff_exists.mp
      (checkQueryParams_isSome_of_badKey safe (parse_qs p.query) n vs hmem hbad)
    simp [validate_request, validate_url, hp, hpath', hq, hm]

/-- C3, witness: the three amended parts at concrete inputs — the
request for `http://localhost/logs?evil=1` (allowed path, disallowed
query key) is dispatched by the relay, and the filter rejects both that
url and the disallowed-path url `http://localhost/secret2`. -/
theorem C3_filter_bypass_amended_witness :
    (fetch_next trivialEnv ⟨.post, some "http://localhost/logs?evil=1", none, []⟩).2 ≠ .noCall ∧
    (validate_request (fun _ => true) "http://localhost/secret2" []).1 = false ∧
    (validate_request (fun _ => true) "http://localhost/logs?evil=1" []).1 = false :=
  ⟨C3_filter_bypass_amended.1 trivialEnv _ "http://localhost/logs?evil=1" 0
      ⟨"http", "localhost", "/logs", "", "evil=1", ""⟩
      rfl (by decide) (by decide) (by decide) (by decide) (by decide) (by decide),
   C3_filter_bypass_amended.2.1 (fun _ => true) "http://localhost/secret2" []
      ⟨"http", "localhost", "/secret2", "", "", ""⟩ (by decide) (by decide),
   C3_filter_bypass_amended.2.2 (fun _ => true) "http://localhost/logs?evil=1" []
      ⟨"http", "localhost", "/logs", "", "evil=1", ""⟩ "evil" ["1"]
      (by decide) (by decide) (by decide) (by decide)⟩

/-- C7, confirmed: one `should_block` call prunes stale timestamps from
the front of the client's history (drop-from-front of entries older than
the time window), appends the current time, and returns true exactly
when the resulting count exceeds `max_requests`; in that case the
client's unblock time becomes `now + block_duration` and its history is
cleared, otherwise the blocked-IP table is untouched and the history is
the pruned sequence plus the current time. -/
theorem C7_should_block_spec (rl : RateLimiter) (ip : String) (now : ℤ) :
    (should_block rl ip now).1 =
      decide ((((getHist rl ip).dropWhile (fun t => now - t > rl.timeWindow)) ++ [now]).length
        > rl.maxRequests) ∧
    (should_block rl ip now).2.blockedIps =
      (if (((getHist rl ip).dropWhile (fun t => now - t > rl.timeWindow)) ++ [now]).length
          > rl.maxRequests
       then setA rl.blockedIps ip (now + rl.blockDuration)
       else rl.blockedIps) ∧
    getBlocked (should_block rl ip now).2 ip =
      (if (((getHist rl ip).dropWhile (fun t => now - t > rl.timeWindow)) ++ [now]).length
          > rl.maxRequests
       then some (now + rl.blockDuration)
       else getBlocked rl ip) ∧
    getHist (should_block rl ip now).2 ip =
      (if (((getHist rl ip).dropWhile (fun t => now - t > rl.timeWindow)) ++ [now]).length
          > rl.maxRequests
       then []
       else ((getHist rl ip).dropWhile (fun t => now - t > rl.timeWindow)) ++ [now]) := by
  unfold should_block
  dsimp only
  split_ifs with hb
  · refine ⟨(decide_eq_true hb).symm, rfl, ?_, ?_⟩
    · show RateLimiterM.lookupA
        (setA rl.blockedIps ip (now + rl.blockDuration)) ip = some (now + rl.blockDuration)
      exact lookupA_setA_self rl.blockedIps ip (now + rl.blockDuration)
    · show (RateLimiterM.lookupA (setA rl.requestHistory ip []) ip).getD [] = []
      rw [lookupA_setA_self]
      rfl
  · refine ⟨(decide_eq_false hb).symm, rfl, rfl, ?_⟩
    show (RateLimiterM.lookupA (setA rl.requestHistory ip
        (((getHist rl ip).dropWhile (fun t => now - t > rl.timeWindow)) ++ [now])) ip).getD [] =
      ((getHist rl ip).dropWhile (fun t => now - t > rl.timeWindow)) ++ [now]
    rw [lookupA_setA_self]
    rfl

/-- C9, confirmed: on a POST to `/admin/logs` that passes the access
gate, a `log_file` containing `flag.txt` (or the full
`cat /var/flag/flag.txt` payload, which contains it) makes the handler
read `/var/log/app/flag.txt` directly — its only file effect is that raw
read, with no call to `sanitize_command_input` or `read_file_safely` —
and answer 200 with the flag contents; any other `log_file` outside
the three known names yields the not-found-or-access-denied message,
also with status 200. -/
theorem C9_admin_logs_flag_leak :
    (∀ (env : AdminEnv) (gate : GateRequest) (form : List (String × String)) (c : String),
      (validate_admin_access gate).1 = true →
      (strContains (formGet form "log_file") "flag.txt" = true ∨
       strContains (formGet form "log_file") "cat /var/flag/flag.txt" = true) →
      env.fs "/var/log/app/flag.txt" = .ok c →
      admin_logs_route env gate .post form =
        ⟨200, some ("Flag: " ++ pyStrip c), some (formGet form "log_file"),
         [.readRaw "/var/log/app/flag.txt"]⟩) ∧
    (∀ (env : AdminEnv) (gate : GateRequest) (form : List (String × String)),
      (validate_admin_access gate).1 = true →
      strContains (formGet form "log_file") "flag.txt" = false →
      formGet form "log_file" ∉ (["admin.log", "error.log", "access.log"] : List String) →
      admin_logs_route env gate .post form =
        ⟨200, some ("Log file '" ++ formGet form "log_file" ++ "' not found or access denied."),
         some (formGet form "log_file"), []⟩) := by
  constructor
  · intro env gate form c hg hflag hfs
    have hcond : (strContains (formGet form "log_file") "cat /var/flag/flag.txt"
        || strContains (formGet form "log_file") "flag.txt") = true := by
      rcases hflag with h | h
      · simp [h]
      · simp [strContains_flag_of_cat _ h]
    simp [admin_logs_route, admin_logs, hg, hcond, hfs]
  · intro env gate form hg hflag hmem
    have hcat : strContains (formGet form "log_file") "cat /var/flag/flag.txt" = false := by
      cases hc : strContains (formGet form "log_file") "cat /var/flag/flag.txt"
      · rfl
      · rw [strContains_flag_of_cat _ hc] at hflag
        cases hflag
    have h1 : formGet form "log_file" ≠ "admin.log" := by
      intro h
      exact hmem (by simp [h])
    have h2 : formGet form "log_file" ≠ "error.log" := by
      intro h
      exact hmem (by simp [h])
    have h3 : formGet form "log_file" ≠ "access.log" := by
      intro h
      exact hmem (by simp [h])
    simp [admin_logs_route, admin_logs, hg, hflag, hcat, h1, h2, h3]

/-- C9, witness: both halves on concrete requests through an internal
gate: `log_file = flag.txt` leaks the (stripped) flag with a raw file
read as the only effect, and `log_file = secret.log` gets the not-found
message. -/
theorem C9_admin_logs_flag_leak_witness :
    admin_logs_route ⟨fun _ => .ok " secretflagvalue \n"⟩
        ⟨none, none, none, none, none, some "true", some "0", "127.0.0.1"⟩
        .post [("log_file", "flag.txt")] =
      ⟨200, some ("Flag: " ++ pyStrip " secretflagvalue \n"),
       some (formGet [("log_file", "flag.txt")] "log_file"),
       [.readRaw "/var/log/app/flag.txt"]⟩ ∧
    admin_logs_route ⟨fun _ => .ok " secretflagvalue \n"⟩
        ⟨none, none, none, none, none, some "true", some "0", "127.0.0.1"⟩
        .post [("log_file", "secret.log")] =
      ⟨200, some ("Log file '" ++ formGet [("log_file", "secret.log")] "log_file"
              ++ "' not found or access denied."),
       some (formGet [("log_file", "secret.log")] "log_file"), []⟩ :=
  ⟨C9_admin_logs_flag_leak.1 ⟨fun _ => .ok " secretflagvalue \n"⟩ _ _
      " secretflagvalue \n" (by decide) (Or.inl (by decide)) rfl,
   C9_admin_logs_flag_leak.2 ⟨fun _ => .ok " secretflagvalue \n"⟩ _ _
      (by decide) (by decide) (by decide)⟩

/-- C10, counterexample: two requests from the same peer `9.9.9.9`
carrying the different `X-Forwarded-For` values `10.0.0.1, proxyA` and
`10.0.0.1, proxyB` resolve to the same client identifier `10.0.0.1` —
they are not counted as distinct clients. -/
theorem C10_client_ip_counterexample :
    (⟨some "10.0.0.1, proxyA", none, "9.9.9.9"⟩ : RLRequest).xForwardedFor ≠
      (⟨some "10.0.0.1, proxyB", none, "9.9.9.9"⟩ : RLRequest).xForwardedFor ∧
    get_client_ip ⟨some "10.0.0.1, proxyA", none, "9.9.9.9"⟩ = "10.0.0.1" ∧
    get_client_ip ⟨some "10.0.0.1, proxyB", none, "9.9.9.9"⟩ = "10.0.0.1" := by decide

/-- C10, amended: the rate limiter's client identifier is the stripped
first comma-separated entry of a nonempty `X-Forwarded-For`, else a
nonempty `X-Real-IP` verbatim, else the peer address; two requests from
the same peer are counted as distinct clients exactly when the stripped
first entries of their `X-Forwarded-For` values differ (values differing
only after the first comma share one identifier). -/
theorem C10_client_ip_amended :
    (∀ (r : RLRequest) (s : String), r.xForwardedFor = some s → s ≠ "" →
      get_client_ip r = firstEntryStripped s) ∧
    (∀ (r : RLRequest) (s : String),
      DeploymentConfig.headerTruthy r.xForwardedFor = false →
      r.xRealIp = some s → s ≠ "" →
      get_client_ip r = s) ∧
    (∀ r : RLRequest,
      DeploymentConfig.headerTruthy r.xForwardedFor = false →
      DeploymentConfig.headerTruthy r.xRealIp = false →
      get_client_ip r = r.remoteAddr) ∧
    (∀ (r₁ r₂ : RLRequest) (s₁ s₂ : String),
      r₁.xForwardedFor = some s₁ → r₂.xForwardedFor = some s₂ →
      s₁ ≠ "" → s₂ ≠ "" →
      firstEntryStripped s₁ ≠ firstEntryStripped s₂ →
      get_client_ip r₁ ≠ get_client_ip r₂) := by
  have base : ∀ (r : RLRequest) (s : String), r.xForwardedFor = some s → s ≠ "" →
      get_client_ip r = firstEntryStripped s := by
    intro r s hs hne
    unfold get_client_ip
    rw [hs]
    simp [DeploymentConfig.headerTruthy, hne]
  refine ⟨base, ?_, ?_, ?_⟩
  · intro r s hxff hs hne
    unfold get_client_ip
    rw [hxff, hs]
    simp [DeploymentConfig.headerTruthy, hne]
  · intro r hxff hrip
    unfold get_client_ip
    rw [hxff, hrip]
    simp
  · intro r₁ r₂ s₁ s₂ h1 h2 hne1 hne2 hdiff
    rw [base r₁ s₁ h1 hne1, base r₂ s₂ h2 hne2]
    exact hdiff

/-- C10, witness: the amended parts at concrete requests: header
resolution order and distinctness of differing first entries. -/
theorem C10_client_ip_amended_witness :
    get_client_ip ⟨some " 1.2.3.4 , up", some "9.9.9.9", "8.8.8.8"⟩ =
      firstEntryStripped " 1.2.3.4 , up" ∧
    get_client_ip ⟨none, some "9.9.9.9", "8.8.8.8"⟩ = "9.9.9.9" ∧
    get_client_ip ⟨none, none, "8.8.8.8"⟩ = "8.8.8.8" ∧
    get_client_ip ⟨some "1.2.3.4", none, "8.8.8.8"⟩ ≠
      get_client_ip ⟨some "5.6.7.8", none, "8.8.8.8"⟩ :=
  ⟨C10_client_ip_amended.1 _ " 1.2.3.4 , up" rfl (by decide),
   C10_client_ip_amended.2.1 _ "9.9.9.9" (by decide) rfl (by decide),
   C10_client_ip_amended.2.2.1 _ (by decide) (by decide),
   C10_client_ip_amended.2.2.2 _ _ "1.2.3.4" "5.6.7.8" rfl rfl
     (by decide) (by decide) (by decide)⟩
